import Mathlib

/-!
Verification of the aggregation core of `src/analyze.py` (a training-log
report generator).  The pandas dataframe is embedded as a list of typed
records; timestamps (`pd.to_datetime` values) are year/month/day plus a
seconds-past-midnight component; weights are exact rationals, reps are
integers.  The fallible I/O layer (`pd.read_csv` + `pd.to_datetime`) and
the top-level `__main__` exception handling are modelled with `Except`.
-/

namespace StrongAnalysis

/-- A parsed `Date` cell: what `pd.to_datetime` produces.  `tsec` is the
time-of-day in seconds (the `Strong` export carries a time component;
`.dt.date` drops it, `.dt.year` reads `year`). -/
structure Timestamp where
  year : Nat
  month : Nat
  day : Nat
  tsec : Nat
deriving DecidableEq, Repr

/-- The calendar date of a timestamp: what `df['Date'].dt.date` yields. -/
def Timestamp.calendar (t : Timestamp) : Nat × Nat × Nat :=
  (t.year, t.month, t.day)

/-- Chronological order on timestamps (lexicographic on year, month, day,
time), the order `sort_values('Date')` sorts by. -/
def Timestamp.leb (a b : Timestamp) : Bool :=
  if a.year ≠ b.year then decide (a.year < b.year)
  else if a.month ≠ b.month then decide (a.month < b.month)
  else if a.day ≠ b.day then decide (a.day < b.day)
  else decide (a.tsec ≤ b.tsec)

/-- Order on calendar dates only (time of day ignored). -/
def Timestamp.calLeb (a b : Timestamp) : Bool :=
  if a.year ≠ b.year then decide (a.year < b.year)
  else if a.month ≠ b.month then decide (a.month < b.month)
  else decide (a.day ≤ b.day)

/-- One row of the dataframe after date parsing: columns `Date`,
`Exercise Name`, `Weight`, `Reps` of `data/strong.csv`. -/
structure Record where
  date : Timestamp
  exerciseName : String
  weight : ℚ
  reps : ℤ
deriving DecidableEq, Repr

/-- Row order used by `exercise_df.sort_values('Date')`. -/
def recLE (a b : Record) : Prop :=
  Timestamp.leb a.date b.date = true

instance : DecidableRel recLE := fun a b => by
  unfold recLE; infer_instance

instance : IsTotal Record recLE := by
  constructor
  intro a b
  simp only [recLE, Timestamp.leb]
  split_ifs <;> simp_all <;> omega

instance : IsTrans Record recLE := by
  constructor
  intro a b c hab hbc
  simp only [recLE, Timestamp.leb] at *
  split_ifs at * <;> simp_all <;> omega

/-- `exercise_df.sort_values('Date')` (line 188). -/
def sortByDate (l : List Record) : List Record :=
  List.insertionSort recLE l

/-- The per-group statistics dictionary built at lines 192–199. -/
structure Stats where
  total_volume : ℚ
  total_sets : Nat
  total_reps : ℤ
  avg_weight : ℚ
  max_weight : ℚ
  training_days : Nat
deriving DecidableEq, Repr

/-- `exercise_df['Weight'].max()` on a (nonempty) selection; the `[]` case
is never reached because empty groups are skipped at line 184. -/
def maxWeight : List Record → ℚ
  | [] => 0
  | r :: rs => rs.foldl (fun acc x => max acc x.weight) r.weight

/-- The stats dict of lines 192–199, computed from the (sorted) group
dataframe: `Volume = Weight * Reps` summed, row count, `Reps` summed,
`Weight` mean and max, and `Date.dt.date.nunique()`. -/
def computeStats (l : List Record) : Stats :=
  { total_volume := (l.map (fun r => r.weight * (r.reps : ℚ))).sum
    total_sets := l.length
    total_reps := (l.map (fun r => r.reps)).sum
    avg_weight := (l.map (fun r => r.weight)).sum / (l.length : ℚ)
    max_weight := maxWeight l
    training_days := ((l.map (fun r => r.date.calendar)).dedup).length }

/-- `df = df[df['Date'].dt.year == year]` (line 176). -/
def yearFiltered (records : List Record) (year : Nat) : List Record :=
  records.filter (fun r => r.date.year == year)

/-- The loop of lines 181–202 over the (insertion-ordered) mapping items:
select the group rows by alias, skip the group if the selection is empty,
otherwise sort by date and emit (stats, sorted dataframe). -/
def analyzeGo (df : List Record) :
    List (String × List String) → List (String × Stats) × List (String × List Record)
  | [] => ([], [])
  | (main_exercise, alt_names) :: rest =>
    let exercise_df := df.filter (fun r => alt_names.contains r.exerciseName)
    let prev := analyzeGo df rest
    if exercise_df = [] then prev
    else ((main_exercise, computeStats (sortByDate exercise_df)) :: prev.1,
          (main_exercise, sortByDate exercise_df) :: prev.2)

/-- The pure core of `analyze_exercises` (lines 176–204), taking the
already-read-and-parsed dataframe: filter to the target year, then process
each mapping entry.  Returns `(all_stats, all_dfs)`. -/
def analyze_exercises (records : List Record)
    (mappings : List (String × List String)) (year : Nat) :
    List (String × Stats) × List (String × List Record) :=
  analyzeGo (yearFiltered records year) mappings

/-- The records a group selects: year filter (line 176) then alias
membership (line 182). -/
def selection (records : List Record) (alts : List String) (year : Nat) :
    List Record :=
  (yearFiltered records year).filter (fun r => alts.contains r.exerciseName)

/-- `stats[ex]['total_sets'] / stats[ex]['training_days']` as computed in
`create_detailed_stats_table` (line 67) and `create_sets_per_session_plot`
(lines 100–101). -/
def sets_per_session (s : Stats) : ℚ :=
  (s.total_sets : ℚ) / (s.training_days : ℚ)

/-- The mapping dict built in `__main__` (lines 208–212); note the trailing
spaces in two of the alias strings, exactly as in the source. -/
def exercise_mappings : List (String × List String) :=
  [("Squat (Barbell)", ["Squat (Barbell)"]),
   ("Deadlift (Barbell)", ["Deadlift (Barbell)", "Deadlift Old Data "]),
   ("Bench Press (Barbell)", ["Bench Press (Barbell)", "Bench press Backup "])]

/-! Helper lemmas about association-list lookup and `analyzeGo`. -/

theorem lookup_eq_none_of_forall_ne {β : Type} (k : String) (l : List (String × β))
    (h : ∀ p ∈ l, p.1 ≠ k) : l.lookup k = none := by
  induction l with
  | nil => rfl
  | cons hd tl ih =>
    have hhd : hd.1 ≠ k := h hd (List.mem_cons_self hd tl)
    obtain ⟨a, b⟩ := hd
    simp only [List.lookup]
    have : (k == a) = false := beq_false_of_ne fun hk => hhd (by simpa using hk.symm)
    rw [this]
    exact ih fun p hp => h p (List.mem_cons_of_mem _ hp)

theorem analyzeGo_keys (df : List Record) (ms : List (String × List String)) :
    ∀ k, (k ∈ ((analyzeGo df ms).1.map Prod.fst) → k ∈ ms.map Prod.fst) ∧
         (k ∈ ((analyzeGo df ms).2.map Prod.fst) → k ∈ ms.map Prod.fst) := by
  induction ms with
  | nil => intro k; simp [analyzeGo]
  | cons hd tl ih =>
    intro k
    obtain ⟨m, a⟩ := hd
    simp only [analyzeGo]
    by_cases hsel : df.filter (fun r => a.contains r.exerciseName) = []
    · simp only [if_pos hsel]
      exact ⟨fun h => List.mem_cons_of_mem _ ((ih k).1 h),
             fun h => List.mem_cons_of_mem _ ((ih k).2 h)⟩
    · simp only [if_neg hsel, List.map_cons, List.mem_cons]
      constructor
      · rintro (h | h)
        · exact Or.inl h
        · exact Or.inr ((ih k).1 h)
      · rintro (h | h)
        · exact Or.inl h
        · exact Or.inr ((ih k).2 h)

/-- Central lemma: under the Python-dict invariant that mapping keys are
distinct, looking a group up in either output of the loop yields exactly
its (sorted) selection's data, or nothing when the selection is empty. -/
theorem analyzeGo_lookup (df : List Record) (ms : List (String × List String))
    (main : String) (alts : List String)
    (hmem : (main, alts) ∈ ms) (hnd : (ms.map Prod.fst).Nodup) :
    (analyzeGo df ms).1.lookup main =
      (if df.filter (fun r => alts.contains r.exerciseName) = [] then none
       else some (computeStats (sortByDate (df.filter (fun r => alts.contains r.exerciseName))))) ∧
    (analyzeGo df ms).2.lookup main =
      (if df.filter (fun r => alts.contains r.exerciseName) = [] then none
       else some (sortByDate (df.filter (fun r => alts.contains r.exerciseName)))) := by
  induction ms with
  | nil => cases hmem
  | cons hd tl ih =>
    obtain ⟨m, a⟩ := hd
    simp only [List.map_cons, List.nodup_cons] at hnd
    rcases List.mem_cons.mp hmem with heq | htl
    · obtain ⟨h1, h2⟩ := Prod.mk.injEq .. ▸ heq
      subst h1; subst h2
      by_cases hsel : df.filter (fun r => alts.contains r.exerciseName) = []
      · simp only [analyzeGo, if_pos hsel]
        constructor
        · exact lookup_eq_none_of_forall_ne _ _ fun p hp hk =>
            hnd.1 (hk ▸ ((analyzeGo_keys df tl) p.1).1 (List.mem_map_of_mem Prod.fst hp))
        · exact lookup_eq_none_of_forall_ne _ _ fun p hp hk =>
            hnd.1 (hk ▸ ((analyzeGo_keys df tl) p.1).2 (List.mem_map_of_mem Prod.fst hp))
      · simp only [analyzeGo, if_neg hsel, List.lookup, beq_self_eq_true]
        exact ⟨trivial, trivial⟩
    · have hmain : main ∈ tl.map Prod.fst := List.mem_map_of_mem Prod.fst htl
      have hmne : (main == m) = false := beq_false_of_ne fun hk => hnd.1 (hk ▸ hmain)
      simp only [analyzeGo]
      by_cases hsel : df.filter (fun r => a.contains r.exerciseName) = []
      · simp only [if_pos hsel]
        exact ih htl hnd.2
      · simp only [if_neg hsel, List.lookup, hmne]
        exact ih htl hnd.2

theorem mem_keys_lookup_isSome {β : Type} (k : String) (l : List (String × β))
    (h : k ∈ l.map Prod.fst) : ∃ b, l.lookup k = some b := by
  induction l with
  | nil => simp at h
  | cons hd tl ih =>
    obtain ⟨a, b⟩ := hd
    by_cases hk : (k == a) = true
    · exact ⟨b, by simp [List.lookup, hk]⟩
    · simp only [List.map_cons, List.mem_cons] at h
      rcases h with h | h
      · exact absurd (by simp [h]) hk
      · simpa [List.lookup, Bool.eq_false_iff.mpr hk] using ih h

/-- Inversion: a group present in the stats output arose from a mapping
entry with a non-empty selection. -/
theorem analyzeGo_mem_stats (df : List Record) (ms : List (String × List String))
    (main : String) (s : Stats) (h : (main, s) ∈ (analyzeGo df ms).1) :
    ∃ alts, (main, alts) ∈ ms ∧
      df.filter (fun r => alts.contains r.exerciseName) ≠ [] ∧
      s = computeStats (sortByDate (df.filter (fun r => alts.contains r.exerciseName))) := by
  induction ms with
  | nil => simp [analyzeGo] at h
  | cons hd tl ih =>
    obtain ⟨m, a⟩ := hd
    simp only [analyzeGo] at h
    by_cases hsel : df.filter (fun r => a.contains r.exerciseName) = []
    · rw [if_pos hsel] at h
      obtain ⟨alts, h1, h2, h3⟩ := ih h
      exact ⟨alts, List.mem_cons_of_mem _ h1, h2, h3⟩
    · rw [if_neg hsel] at h
      rcases List.mem_cons.mp h with heq | htl
    -- Pair injectivity yields the head group, otherwise recurse.
      · obtain ⟨h1, h2⟩ := Prod.mk.injEq .. ▸ heq
        exact ⟨a, by rw [h1]; exact List.mem_cons_self _ _, hsel, h2⟩
      · obtain ⟨alts, h1, h2, h3⟩ := ih htl
        exact ⟨alts, List.mem_cons_of_mem _ h1, h2, h3⟩

/-- Inversion for the per-group dataframe output. -/
theorem analyzeGo_mem_dfs (df : List Record) (ms : List (String × List String))
    (main : String) (l : List Record) (h : (main, l) ∈ (analyzeGo df ms).2) :
    ∃ alts, (main, alts) ∈ ms ∧
      df.filter (fun r => alts.contains r.exerciseName) ≠ [] ∧
      l = sortByDate (df.filter (fun r => alts.contains r.exerciseName)) := by
  induction ms with
  | nil => simp [analyzeGo] at h
  | cons hd tl ih =>
    obtain ⟨m, a⟩ := hd
    simp only [analyzeGo] at h
    by_cases hsel : df.filter (fun r => a.contains r.exerciseName) = []
    · rw [if_pos hsel] at h
      obtain ⟨alts, h1, h2, h3⟩ := ih h
      exact ⟨alts, List.mem_cons_of_mem _ h1, h2, h3⟩
    · rw [if_neg hsel] at h
      rcases List.mem_cons.mp h with heq | htl
      · obtain ⟨h1, h2⟩ := Prod.mk.injEq .. ▸ heq
        exact ⟨a, by rw [h1]; exact List.mem_cons_self _ _, hsel, h2⟩
      · obtain ⟨alts, h1, h2, h3⟩ := ih htl
        exact ⟨alts, List.mem_cons_of_mem _ h1, h2, h3⟩

theorem foldl_max_spec (rs : List Record) (acc : ℚ) :
    (rs.foldl (fun a x => max a x.weight) acc = acc ∨
      ∃ r ∈ rs, rs.foldl (fun a x => max a x.weight) acc = r.weight) ∧
    acc ≤ rs.foldl (fun a x => max a x.weight) acc ∧
    ∀ r ∈ rs, r.weight ≤ rs.foldl (fun a x => max a x.weight) acc := by
  induction rs generalizing acc with
  | nil => simp
  | cons hd tl ih =>
    simp only [List.foldl_cons]
    obtain ⟨hmem, hle, hub⟩ := ih (max acc hd.weight)
    refine ⟨?_, le_trans (le_max_left _ _) hle, ?_⟩
    · rcases hmem with h | ⟨r, hr, hrw⟩
      · rcases max_choice acc hd.weight with hm | hm
        · left; rw [h, hm]
        · right; exact ⟨hd, List.mem_cons_self _ _, by rw [h, hm]⟩
      · right; exact ⟨r, List.mem_cons_of_mem _ hr, hrw⟩
    · intro r hr
      rcases List.mem_cons.mp hr with rfl | hr'
      · exact le_trans (le_max_right _ _) hle
      · exact hub r hr'

theorem maxWeight_mem (l : List Record) (h : l ≠ []) :
    ∃ r ∈ l, maxWeight l = r.weight := by
  match l, h with
  | r :: rs, _ =>
    rcases (foldl_max_spec rs r.weight).1 with h1 | ⟨r', hr', hw⟩
    · exact ⟨r, List.mem_cons_self _ _, h1⟩
    · exact ⟨r', List.mem_cons_of_mem _ hr', hw⟩

theorem le_maxWeight (l : List Record) : ∀ r ∈ l, r.weight ≤ maxWeight l := by
  match l with
  | [] => intro r hr; simp at hr
  | r :: rs =>
    intro x hx
    rcases List.mem_cons.mp hx with rfl | hx'
    · exact (foldl_max_spec rs x.weight).2.1
    · exact (foldl_max_spec rs r.weight).2.2 x hx'

theorem dedup_eq_singleton {α : Type} [DecidableEq α] (l : List α) (d : α)
    (hne : l ≠ []) (h : ∀ x ∈ l, x = d) : l.dedup = [d] := by
  induction l with
  | nil => cases hne rfl
  | cons a tl ih =>
    have ha : a = d := h a (List.mem_cons_self _ _)
    by_cases htl : tl = []
    · subst htl; simp [ha]
    · have hmem : a ∈ tl := by
        obtain ⟨y, hy⟩ := List.exists_mem_of_ne_nil tl htl
        have : y = d := h y (List.mem_cons_of_mem _ hy)
        rw [ha, ← this]; exact hy
      rw [List.dedup_cons_of_mem hmem]
      exact ih htl fun x hx => h x (List.mem_cons_of_mem _ hx)

/-- Timestamp order restricted to the calendar-date components. -/
theorem recLE_calLeb {a b : Record} (h : recLE a b) :
    a.date.calLeb b.date = true := by
  simp only [recLE, Timestamp.leb] at h
  simp only [Timestamp.calLeb]
  split_ifs at * <;> simp_all <;> omega

/-! The fallible I/O layer: `pd.read_csv('data/strong.csv')` and
`pd.to_datetime(df['Date'])` (lines 174–175), and the top-level driver
with its exception handling (`__main__`, lines 206–220). -/

/-- A raw CSV row before date parsing: the `Date` cell is still a string
(weights and reps are already numeric, as `read_csv` infers them). -/
structure RawRow where
  dateStr : String
  exerciseName : String
  weight : ℚ
  reps : ℤ
deriving DecidableEq, Repr

/-- The two exception kinds the driver distinguishes: `FileNotFoundError`
and every other `Exception`, carrying its message. -/
inductive PyError where
  | fileNotFoundError : PyError
  | exception : String → PyError
deriving DecidableEq, Repr

/-- Split a character list at every occurrence of the separator. -/
def splitOnChar (c : Char) : List Char → List (List Char)
  | [] => [[]]
  | x :: xs =>
    if x = c then [] :: splitOnChar c xs
    else
      match splitOnChar c xs with
      | [] => [[x]]
      | g :: gs => (x :: g) :: gs

/-- The value of a decimal digit character. -/
def digitVal (c : Char) : Option Nat :=
  if c.isDigit then some (c.toNat - 48) else none

def digitsToNatAux : List Char → Nat → Option Nat
  | [], acc => some acc
  | c :: cs, acc =>
    match digitVal c with
    | none => none
    | some d => digitsToNatAux cs (acc * 10 + d)

/-- A nonempty all-digit character run as a natural number. -/
def digitsToNat : List Char → Option Nat
  | [] => none
  | l => digitsToNatAux l 0

/-- A `HH:MM:SS` time-of-day as seconds past midnight. -/
def parseTime (t : List Char) : Option Nat :=
  match splitOnChar ':' t with
  | [h, m, sec] => do
    let hv ← digitsToNat h
    let mv ← digitsToNat m
    let sv ← digitsToNat sec
    if hv < 24 ∧ mv < 60 ∧ sv < 60 then some (hv * 3600 + mv * 60 + sv) else none
  | _ => none

/-- A `YYYY-MM-DD` date carrying a given time-of-day; out-of-range month
or day components are rejected (day-in-month subtleties are abstracted to
`day ≤ 31`). -/
def parseDate (d : List Char) (tsec : Nat) : Option Timestamp :=
  match splitOnChar '-' d with
  | [y, m, dd] => do
    let yv ← digitsToNat y
    let mv ← digitsToNat m
    let dv ← digitsToNat dd
    if 1 ≤ mv ∧ mv ≤ 12 ∧ 1 ≤ dv ∧ dv ≤ 31 then some ⟨yv, mv, dv, tsec⟩ else none
  | _ => none

/-- A `Date` cell as `pd.to_datetime` accepts it: `YYYY-MM-DD`,
optionally followed by a `HH:MM:SS` time. -/
def parseTimestamp (s : String) : Option Timestamp :=
  match splitOnChar ' ' s.toList with
  | [d] => parseDate d 0
  | [d, t] => do parseDate d (← parseTime t)
  | _ => none

/-- `pd.read_csv('data/strong.csv')` (line 174): `none` stands for a
missing file, which raises `FileNotFoundError`. -/
def read_strong_csv (fs : Option (List RawRow)) : Except PyError (List RawRow) :=
  match fs with
  | none => .error .fileNotFoundError
  | some rows => .ok rows

/-- `df['Date'] = pd.to_datetime(df['Date'])` (line 175): parse every
row's date, raising a generic exception on the first malformed cell. -/
def to_datetime : List RawRow → Except PyError (List Record)
  | [] => .ok []
  | row :: rest =>
    match parseTimestamp row.dateStr with
    | none => .error (.exception ("Unknown datetime string format: " ++ row.dateStr))
    | some ts => (to_datetime rest).map
        (fun recs => ⟨ts, row.exerciseName, row.weight, row.reps⟩ :: recs)

/-- The source `analyze_exercises` function in full (lines 173–204): read
the CSV, parse the dates, then run the pure aggregation.  The `year`
parameter defaults to 2024 in the source; callers here pass it
explicitly. -/
def analyze_exercises_run (fs : Option (List RawRow))
    (mappings : List (String × List String)) (year : Nat) :
    Except PyError (List (String × Stats) × List (String × List Record)) :=
  match read_strong_csv fs with
  | .error e => .error e
  | .ok rows =>
    match to_datetime rows with
    | .error e => .error e
    | .ok recs => .ok (analyze_exercises recs mappings year)

/-- The rendered artifact (`output/training_report.png`): its title
carries the report's `year` argument (line 19); the table and chart
panels are drawn from `stats` and `dfs`. -/
structure Report where
  title : String
  stats : List (String × Stats)
  dfs : List (String × List Record)
deriving DecidableEq, Repr

/-- `create_comprehensive_report` (lines 7–44): it calls
`analyze_exercises(exercise_mappings)` WITHOUT forwarding its own `year`
argument (line 12), so aggregation always uses the source default 2024;
`year` reaches only the title (line 19).  The artifact exists only if no
exception was raised before `savefig` (line 43). -/
def create_comprehensive_report (fs : Option (List RawRow))
    (mappings : List (String × List String)) (year : Nat) :
    Except PyError Report :=
  (analyze_exercises_run fs mappings 2024).map
    (fun res => { title := "Training Analysis Report - " ++ toString year
                  stats := res.1
                  dfs := res.2 })

/-- The `__main__` block (lines 206–220): run the report with the
configured mappings (and the default year 2024); on success print the
success message, on `FileNotFoundError` print the fixed file-path
message, on any other exception print its message.  The second component
is the written artifact (`none` = no report file produced). -/
def main_run (fs : Option (List RawRow)) : String × Option Report :=
  match create_comprehensive_report fs exercise_mappings 2024 with
  | .ok rep =>
    ("Report has been generated and saved as 'output/training_report.png'", some rep)
  | .error .fileNotFoundError =>
    ("Error: Could not find 'data/strong.csv'. Please check the file path.", none)
  | .error (.exception msg) =>
    ("An error occurred: " ++ msg, none)

/-- The three records of the spec's worked example (section 8). -/
def squatExample : List Record :=
  [⟨⟨2024, 1, 1, 0⟩, "Squat (Barbell)", 100, 5⟩,
   ⟨⟨2024, 1, 1, 0⟩, "Squat (Barbell)", 105, 3⟩,
   ⟨⟨2024, 1, 8, 0⟩, "Squat (Barbell)", 110, 5⟩]

theorem lookup_some_mem {β : Type} {k : String} {l : List (String × β)} {b : β}
    (h : l.lookup k = some b) : (k, b) ∈ l := by
  induction l with
  | nil => simp [List.lookup] at h
  | cons hd tl ih =>
    obtain ⟨a, c⟩ := hd
    by_cases hk : (k == a) = true
    · simp only [List.lookup, hk] at h
      obtain rfl : c = b := by injection h
      obtain rfl : k = a := by simpa using hk
      exact List.mem_cons_self _ _
    · simp only [List.lookup, Bool.eq_false_iff.mpr hk] at h
      exact List.mem_cons_of_mem _ (ih h)

/-! The claims. -/

/-- C1: for every group of the (distinct-keyed, as a Python dict) mappings
whose selection — records with exercise name in the group's alias set and
date in the target year — is non-empty, the stats dictionary returned by
`analyze_exercises` maps the group to stats whose `total_sets` is the
number of selected records, whose `total_reps` is the sum of their reps,
and whose `total_volume` is the sum of weight × reps over them. -/
theorem analyze_exercises_totals (records : List Record)
    (mappings : List (String × List String)) (year : Nat)
    (main : String) (alts : List String)
    (hmem : (main, alts) ∈ mappings)
    (hnd : (mappings.map Prod.fst).Nodup)
    (hne : selection records alts year ≠ []) :
    ∃ s, (analyze_exercises records mappings year).1.lookup main = some s ∧
      s.total_sets = (selection records alts year).length ∧
      s.total_reps = ((selection records alts year).map (fun r => r.reps)).sum ∧
      s.total_volume =
        ((selection records alts year).map (fun r => r.weight * (r.reps : ℚ))).sum := by
  have h0 := (analyzeGo_lookup (yearFiltered records year) mappings main alts hmem hnd).1
  have h : (analyze_exercises records mappings year).1.lookup main =
      if selection records alts year = [] then none
      else some (computeStats (sortByDate (selection records alts year))) := h0
  rw [if_neg hne] at h
  refine ⟨_, h, ?_, ?_, ?_⟩
  all_goals
    have hperm := List.perm_insertionSort recLE (selection records alts year)
    simp only [computeStats]
  · exact hperm.length_eq
  · exact (hperm.map (fun r => r.reps)).sum_eq
  · exact (hperm.map (fun r => r.weight * (r.reps : ℚ))).sum_eq

theorem analyze_exercises_totals_witness :
    ∃ s, (analyze_exercises squatExample exercise_mappings 2024).1.lookup
        "Squat (Barbell)" = some s ∧
      s.total_sets = (selection squatExample ["Squat (Barbell)"] 2024).length ∧
      s.total_reps =
        ((selection squatExample ["Squat (Barbell)"] 2024).map (fun r => r.reps)).sum ∧
      s.total_volume =
        ((selection squatExample ["Squat (Barbell)"] 2024).map
          (fun r => r.weight * (r.reps : ℚ))).sum :=
  analyze_exercises_totals squatExample exercise_mappings 2024
    "Squat (Barbell)" ["Squat (Barbell)"] (by decide) (by decide) (by decide)

/-- C2: a mapped group with an empty selection in the target year is
absent as a key from both outputs of `analyze_exercises` (it never
appears with zero or empty values; the run is total, so this is no
error). -/
theorem analyze_exercises_empty_group_absent (records : List Record)
    (mappings : List (String × List String)) (year : Nat)
    (main : String) (alts : List String)
    (hmem : (main, alts) ∈ mappings)
    (hnd : (mappings.map Prod.fst).Nodup)
    (hempty : selection records alts year = []) :
    main ∉ (analyze_exercises records mappings year).1.map Prod.fst ∧
    main ∉ (analyze_exercises records mappings year).2.map Prod.fst := by
  have h0 := analyzeGo_lookup (yearFiltered records year) mappings main alts hmem hnd
  have h1 : (analyze_exercises records mappings year).1.lookup main =
      if selection records alts year = [] then none
      else some (computeStats (sortByDate (selection records alts year))) := h0.1
  have h2 : (analyze_exercises records mappings year).2.lookup main =
      if selection records alts year = [] then none
      else some (sortByDate (selection records alts year)) := h0.2
  rw [if_pos hempty] at h1
  rw [if_pos hempty] at h2
  constructor
  · intro hk
    obtain ⟨b, hb⟩ := mem_keys_lookup_isSome main _ hk
    rw [h1] at hb; cases hb
  · intro hk
    obtain ⟨b, hb⟩ := mem_keys_lookup_isSome main _ hk
    rw [h2] at hb; cases hb

theorem analyze_exercises_empty_group_absent_witness :
    "Squat (Barbell)" ∉
      (analyze_exercises [⟨⟨2023, 3, 3, 0⟩, "Squat (Barbell)", 90, 5⟩,
        ⟨⟨2024, 3, 3, 0⟩, "Bench Press (Barbell)", 80, 5⟩] exercise_mappings 2024).1.map
        Prod.fst ∧
    "Squat (Barbell)" ∉
      (analyze_exercises [⟨⟨2023, 3, 3, 0⟩, "Squat (Barbell)", 90, 5⟩,
        ⟨⟨2024, 3, 3, 0⟩, "Bench Press (Barbell)", 80, 5⟩] exercise_mappings 2024).2.map
        Prod.fst :=
  analyze_exercises_empty_group_absent _ exercise_mappings 2024
    "Squat (Barbell)" ["Squat (Barbell)"] (by decide) (by decide) (by decide)

/-- C3, counterexample: the claim reads the second Deadlift alias without
its trailing space.  A 2024 record named "Deadlift Old Data" (exactly, no
trailing space) matches no alias of the configured `exercise_mappings` —
the run produces no stats and no series at all, so the record contributes
to nothing. -/
theorem deadlift_alias_counterexample :
    analyze_exercises [⟨⟨2024, 5, 10, 0⟩, "Deadlift Old Data", 225, 5⟩]
      exercise_mappings 2024 = ([], []) ∧
    (analyze_exercises [⟨⟨2024, 5, 10, 0⟩, "Deadlift Old Data", 225, 5⟩]
      exercise_mappings 2024).1.lookup "Deadlift (Barbell)" = none := by
  exact ⟨by decide, by decide⟩

/-- C3, amended: with the configured mappings, every record named
"Deadlift (Barbell)" and every record named "Deadlift Old Data " (with
the trailing space, as configured at line 210) whose date lies in 2024
enters the Deadlift group's selection, and the "Deadlift (Barbell)" stats
are computed from exactly that selection. -/
theorem deadlift_alias_merged (records : List Record) (r : Record)
    (hr : r ∈ records) (hy : r.date.year = 2024)
    (hname : r.exerciseName = "Deadlift (Barbell)" ∨
             r.exerciseName = "Deadlift Old Data ") :
    r ∈ selection records ["Deadlift (Barbell)", "Deadlift Old Data "] 2024 ∧
    (analyze_exercises records exercise_mappings 2024).1.lookup "Deadlift (Barbell)" =
      some (computeStats (sortByDate
        (selection records ["Deadlift (Barbell)", "Deadlift Old Data "] 2024))) := by
  have hrsel : r ∈ selection records ["Deadlift (Barbell)", "Deadlift Old Data "] 2024 := by
    unfold selection yearFiltered
    refine List.mem_filter.mpr ⟨List.mem_filter.mpr ⟨hr, by simp [hy]⟩, ?_⟩
    rcases hname with h | h <;> simp [List.contains, h]
  refine ⟨hrsel, ?_⟩
  have h0 := (analyzeGo_lookup (yearFiltered records 2024) exercise_mappings
    "Deadlift (Barbell)" ["Deadlift (Barbell)", "Deadlift Old Data "]
    (by decide) (by decide)).1
  have h : (analyze_exercises records exercise_mappings 2024).1.lookup "Deadlift (Barbell)" =
      if selection records ["Deadlift (Barbell)", "Deadlift Old Data "] 2024 = [] then none
      else some (computeStats (sortByDate
        (selection records ["Deadlift (Barbell)", "Deadlift Old Data "] 2024))) := h0
  rw [if_neg (List.ne_nil_of_mem hrsel)] at h
  exact h

theorem deadlift_alias_merged_witness :
    (⟨⟨2024, 5, 10, 0⟩, "Deadlift Old Data ", 225, 5⟩ : Record) ∈
      selection [⟨⟨2024, 5, 10, 0⟩, "Deadlift Old Data ", 225, 5⟩]
        ["Deadlift (Barbell)", "Deadlift Old Data "] 2024 ∧
    (analyze_exercises [⟨⟨2024, 5, 10, 0⟩, "Deadlift Old Data ", 225, 5⟩]
        exercise_mappings 2024).1.lookup "Deadlift (Barbell)" =
      some (computeStats (sortByDate
        (selection [⟨⟨2024, 5, 10, 0⟩, "Deadlift Old Data ", 225, 5⟩]
          ["Deadlift (Barbell)", "Deadlift Old Data "] 2024))) :=
  deadlift_alias_merged _ _ (List.mem_cons_self _ _) rfl (Or.inr rfl)

/-- C4: when the data file cannot be read the run prints the fixed
message naming `data/strong.csv` (not a raw I/O error), and for any other
exception raised before rendering completes the run prints the
exception's message; in both cases no artifact is produced. -/
theorem main_run_error_handling (fs : Option (List RawRow)) :
    (fs = none →
      main_run fs =
        ("Error: Could not find 'data/strong.csv'. Please check the file path.", none)) ∧
    (∀ msg, create_comprehensive_report fs exercise_mappings 2024 =
        .error (.exception msg) →
      main_run fs = ("An error occurred: " ++ msg, none)) := by
  constructor
  · rintro rfl; rfl
  · intro msg h
    unfold main_run
    rw [h]

theorem main_run_error_handling_witness :
    main_run none =
      ("Error: Could not find 'data/strong.csv'. Please check the file path.", none) ∧
    main_run (some [⟨"yesterday", "Squat (Barbell)", 100, 5⟩]) =
      ("An error occurred: " ++ "Unknown datetime string format: yesterday", none) :=
  ⟨(main_run_error_handling none).1 rfl,
   (main_run_error_handling (some [⟨"yesterday", "Squat (Barbell)", 100, 5⟩])).2
     "Unknown datetime string format: yesterday" rfl⟩

/-- C5: every group present in the stats output has at least one training
day, so the unguarded `total_sets / training_days` of the table and the
bar plot never divides by zero: the divisor is a nonzero rational and the
division cancels exactly. -/
theorem training_days_pos (records : List Record)
    (mappings : List (String × List String)) (year : Nat)
    (main : String) (s : Stats)
    (h : (main, s) ∈ (analyze_exercises records mappings year).1) :
    1 ≤ s.training_days ∧ (s.training_days : ℚ) ≠ 0 ∧
      sets_per_session s * (s.training_days : ℚ) = (s.total_sets : ℚ) := by
  obtain ⟨alts, hmem, hne, rfl⟩ := analyzeGo_mem_stats _ _ _ _ h
  have hperm : (sortByDate ((yearFiltered records year).filter
      (fun r => alts.contains r.exerciseName))).Perm
      ((yearFiltered records year).filter (fun r => alts.contains r.exerciseName)) :=
    List.perm_insertionSort recLE _
  have hsne : sortByDate
      ((yearFiltered records year).filter (fun r => alts.contains r.exerciseName)) ≠ [] :=
    fun h0 => hne ((h0 ▸ hperm).symm.eq_nil)
  have htd : 1 ≤ (computeStats (sortByDate
      ((yearFiltered records year).filter (fun r => alts.contains r.exerciseName)))).training_days := by
    simp only [computeStats]
    have : ((sortByDate ((yearFiltered records year).filter
        (fun r => alts.contains r.exerciseName))).map (fun r => r.date.calendar)).dedup ≠ [] := by
      rw [Ne, List.dedup_eq_nil, List.map_eq_nil]
      exact hsne
    have := List.length_pos.mpr this
    omega
  have hne0 : ((computeStats (sortByDate
      ((yearFiltered records year).filter (fun r => alts.contains r.exerciseName)))).training_days : ℚ) ≠ 0 :=
    Nat.cast_ne_zero.mpr (by omega)
  exact ⟨htd, hne0, div_mul_cancel₀ _ hne0⟩

theorem training_days_pos_witness :
    1 ≤ (computeStats (sortByDate (selection squatExample ["Squat (Barbell)"] 2024))).training_days ∧
    ((computeStats (sortByDate (selection squatExample ["Squat (Barbell)"] 2024))).training_days : ℚ) ≠ 0 ∧
      sets_per_session (computeStats (sortByDate (selection squatExample ["Squat (Barbell)"] 2024))) *
        ((computeStats (sortByDate (selection squatExample ["Squat (Barbell)"] 2024))).training_days : ℚ) =
      ((computeStats (sortByDate (selection squatExample ["Squat (Barbell)"] 2024))).total_sets : ℚ) :=
  training_days_pos squatExample [("Squat (Barbell)", ["Squat (Barbell)"])] 2024
    "Squat (Barbell)"
    (computeStats (sortByDate (selection squatExample ["Squat (Barbell)"] 2024)))
    (lookup_some_mem rfl)

/-- C6: a record dated outside the target year contributes to no group's
stats or series, even when its name is in some alias set: removing it
from the input (at any position) leaves both outputs unchanged. -/
theorem out_of_year_contributes_nothing (l1 l2 : List Record) (rec : Record)
    (mappings : List (String × List String)) (year : Nat)
    (hy : rec.date.year ≠ year) :
    analyze_exercises (l1 ++ rec :: l2) mappings year =
      analyze_exercises (l1 ++ l2) mappings year := by
  unfold analyze_exercises yearFiltered
  have hfalse : (rec.date.year == year) = false := by simpa using hy
  simp [List.filter_append, List.filter_cons, hfalse]

theorem out_of_year_contributes_nothing_witness :
    analyze_exercises
        (squatExample ++ (⟨⟨2023, 6, 1, 0⟩, "Squat (Barbell)", 200, 5⟩ : Record) :: [])
        exercise_mappings 2024 =
      analyze_exercises (squatExample ++ []) exercise_mappings 2024 :=
  out_of_year_contributes_nothing squatExample [] _ exercise_mappings 2024 (by decide)

/-- C7: every group present in the stats output has
`training_days ≤ total_sets`, and `training_days = 1` whenever all of the
group's selected records share a single calendar date. -/
theorem training_days_le_total_sets (records : List Record)
    (mappings : List (String × List String)) (year : Nat)
    (main : String) (alts : List String)
    (hmem : (main, alts) ∈ mappings)
    (hnd : (mappings.map Prod.fst).Nodup) :
    ∀ s, (analyze_exercises records mappings year).1.lookup main = some s →
      s.training_days ≤ s.total_sets ∧
      ∀ d, (∀ r ∈ selection records alts year, r.date.calendar = d) →
        s.training_days = 1 := by
  intro s hs
  have h0 := (analyzeGo_lookup (yearFiltered records year) mappings main alts hmem hnd).1
  have h : (analyze_exercises records mappings year).1.lookup main =
      if selection records alts year = [] then none
      else some (computeStats (sortByDate (selection records alts year))) := h0
  by_cases hsel : selection records alts year = []
  · rw [if_pos hsel, hs] at h; cases h
  · rw [if_neg hsel, hs] at h
    obtain rfl : s = computeStats (sortByDate (selection records alts year)) := by
      injection h
    have hperm : (sortByDate (selection records alts year)).Perm
        (selection records alts year) := List.perm_insertionSort recLE _
    constructor
    · simp only [computeStats]
      calc ((sortByDate (selection records alts year)).map
              (fun r => r.date.calendar)).dedup.length
          ≤ ((sortByDate (selection records alts year)).map
              (fun r => r.date.calendar)).length :=
            (List.dedup_sublist _).length_le
        _ = (sortByDate (selection records alts year)).length := List.length_map _ _
    · intro d hd
      have hsne : sortByDate (selection records alts year) ≠ [] :=
        fun h0 => hsel ((h0 ▸ hperm).symm.eq_nil)
      have hmapne : (sortByDate (selection records alts year)).map
          (fun r => r.date.calendar) ≠ [] := by
        rw [Ne, List.map_eq_nil]; exact hsne
      have hall : ∀ x ∈ (sortByDate (selection records alts year)).map
          (fun r => r.date.calendar), x = d := by
        intro x hx
        obtain ⟨r, hr, rfl⟩ := List.mem_map.mp hx
        exact hd r (hperm.subset hr)
      simp only [computeStats]
      rw [dedup_eq_singleton _ d hmapne hall]
      rfl

theorem training_days_le_total_sets_witness :
    (computeStats (sortByDate (selection squatExample ["Squat (Barbell)"] 2024))).training_days ≤
      (computeStats (sortByDate (selection squatExample ["Squat (Barbell)"] 2024))).total_sets ∧
    ∀ d, (∀ r ∈ selection squatExample ["Squat (Barbell)"] 2024, r.date.calendar = d) →
      (computeStats (sortByDate (selection squatExample ["Squat (Barbell)"] 2024))).training_days = 1 :=
  training_days_le_total_sets squatExample [("Squat (Barbell)", ["Squat (Barbell)"])] 2024
    "Squat (Barbell)" ["Squat (Barbell)"] (by decide) (by decide) _ rfl

/-- C8: for every group with a non-empty selection, `avg_weight` is the
arithmetic mean (sum over count) and `max_weight` the maximum of the
selected weights; and the spec's worked example — three Squat records in
2024 — yields total_sets 3, total_reps 13, total_volume 1365,
training_days 2, max_weight 110, avg_weight 105. -/
theorem avg_max_weight_correct (records : List Record)
    (mappings : List (String × List String)) (year : Nat)
    (main : String) (alts : List String)
    (hmem : (main, alts) ∈ mappings)
    (hnd : (mappings.map Prod.fst).Nodup)
    (hne : selection records alts year ≠ []) :
    (∃ s, (analyze_exercises records mappings year).1.lookup main = some s ∧
      s.avg_weight = ((selection records alts year).map (fun r => r.weight)).sum /
        ((selection records alts year).length : ℚ) ∧
      (∃ r ∈ selection records alts year, s.max_weight = r.weight) ∧
      (∀ r ∈ selection records alts year, r.weight ≤ s.max_weight)) ∧
    (analyze_exercises squatExample [("Squat (Barbell)", ["Squat (Barbell)"])] 2024).1 =
      [("Squat (Barbell)", ⟨1365, 3, 13, 105, 110, 2⟩)] := by
  constructor
  · have h0 := (analyzeGo_lookup (yearFiltered records year) mappings main alts hmem hnd).1
    have h : (analyze_exercises records mappings year).1.lookup main =
        if selection records alts year = [] then none
        else some (computeStats (sortByDate (selection records alts year))) := h0
    rw [if_neg hne] at h
    have hperm : (sortByDate (selection records alts year)).Perm
        (selection records alts year) := List.perm_insertionSort recLE _
    have hsne : sortByDate (selection records alts year) ≠ [] :=
      fun h0 => hne ((h0 ▸ hperm).symm.eq_nil)
    refine ⟨_, h, ?_, ?_, ?_⟩
    · simp only [computeStats]
      rw [(hperm.map (fun r => r.weight)).sum_eq, hperm.length_eq]
    · obtain ⟨r, hr, hw⟩ := maxWeight_mem _ hsne
      exact ⟨r, hperm.subset hr, by simpa [computeStats] using hw⟩
    · intro r hr
      have hr' : r ∈ sortByDate (selection records alts year) := hperm.mem_iff.mpr hr
      simpa [computeStats] using le_maxWeight _ r hr'
  · norm_num +decide [analyze_exercises, yearFiltered, analyzeGo, computeStats, sortByDate,
      maxWeight, List.insertionSort, List.orderedInsert, recLE, Timestamp.leb,
      Timestamp.calendar, squatExample, List.filter, List.dedup_nil,
      List.dedup_cons_of_mem, List.dedup_cons_of_not_mem, List.contains, Stats.mk.injEq]

theorem avg_max_weight_correct_witness :
    (∃ s, (analyze_exercises squatExample exercise_mappings 2024).1.lookup
        "Squat (Barbell)" = some s ∧
      s.avg_weight = ((selection squatExample ["Squat (Barbell)"] 2024).map
          (fun r => r.weight)).sum /
        ((selection squatExample ["Squat (Barbell)"] 2024).length : ℚ) ∧
      (∃ r ∈ selection squatExample ["Squat (Barbell)"] 2024, s.max_weight = r.weight) ∧
      (∀ r ∈ selection squatExample ["Squat (Barbell)"] 2024, r.weight ≤ s.max_weight)) ∧
    (analyze_exercises squatExample [("Squat (Barbell)", ["Squat (Barbell)"])] 2024).1 =
      [("Squat (Barbell)", ⟨1365, 3, 13, 105, 110, 2⟩)] :=
  avg_max_weight_correct squatExample exercise_mappings 2024
    "Squat (Barbell)" ["Squat (Barbell)"] (by decide) (by decide) (by decide)

/-- C9: every per-group time series in the second output of
`analyze_exercises` is sorted in ascending order of (calendar) date. -/
theorem series_sorted_by_date (records : List Record)
    (mappings : List (String × List String)) (year : Nat)
    (main : String) (l : List Record)
    (h : (main, l) ∈ (analyze_exercises records mappings year).2) :
    l.Sorted (fun a b : Record => a.date.calLeb b.date = true) := by
  obtain ⟨alts, hmem, hne, rfl⟩ := analyzeGo_mem_dfs _ _ _ _ h
  have hs : List.Sorted recLE (sortByDate ((yearFiltered records year).filter
      (fun r => alts.contains r.exerciseName))) := List.sorted_insertionSort recLE _
  exact List.Pairwise.imp (fun hab => recLE_calLeb hab) hs

theorem series_sorted_by_date_witness :
    (sortByDate (selection squatExample ["Squat (Barbell)"] 2024)).Sorted
      (fun a b : Record => a.date.calLeb b.date = true) :=
  series_sorted_by_date squatExample [("Squat (Barbell)", ["Squat (Barbell)"])] 2024
    "Squat (Barbell)" _ (lookup_some_mem rfl)

/-- C10: `create_comprehensive_report` never forwards its `year` argument
to `analyze_exercises` (line 12), so aggregation always uses the source
default 2024, and two runs on the same input differing only in `year`
compute identical stats and series (only the title differs). -/
theorem report_year_affects_only_title (fs : Option (List RawRow))
    (mappings : List (String × List String)) (y1 y2 : Nat) :
    (create_comprehensive_report fs mappings y1).map (fun r => (r.stats, r.dfs)) =
      analyze_exercises_run fs mappings 2024 ∧
    (create_comprehensive_report fs mappings y1).map (fun r => (r.stats, r.dfs)) =
      (create_comprehensive_report fs mappings y2).map (fun r => (r.stats, r.dfs)) := by
  have key : ∀ y, (create_comprehensive_report fs mappings y).map
      (fun r => (r.stats, r.dfs)) = analyze_exercises_run fs mappings 2024 := by
    intro y
    unfold create_comprehensive_report analyze_exercises_run read_strong_csv
    cases fs with
    | none => rfl
    | some rows =>
      show (Except.map _ (Except.map _ (match to_datetime rows with
        | Except.error e => Except.error e
        | Except.ok recs => Except.ok (analyze_exercises recs mappings 2024)))) = _
      cases h : to_datetime rows <;> simp [h, Except.map]
  exact ⟨key y1, (key y1).trans (key y2).symm⟩

end StrongAnalysis
